import Mathlib

/-!
Shallow embedding of `online_microstates.py` (online neurofeedback
acquisition loop) and proofs about its configuration validation, stream
locator, start gate and main acquisition loop.

Conventions of the embedding:
* Wall-clock times and LSL timestamps are modelled as rationals (`ℚ`),
  read from the environment as explicit inputs.
* The shared control gate `state.value` (a C int mutated by the GUI
  process) is modelled as the sequence of values successive reads of
  `state.value` return.
* A Python local variable that may be read before assignment
  (`last_ts` in `run`) is modelled as `Option ℚ`; reading it while it is
  `none` is the `UnboundLocalError` crash of the interpreter.
* Side effects the claims talk about (WARNING logs, `time.sleep(1)`,
  the per-window processing site marked `ADD YOUR CODE HERE`, the
  assignment to `last_ts`, `internal_timer.sleep_atleast`) are recorded
  as an event trace.
-/

namespace OnlineMicrostates

/-! ## Configuration model (`check_config`, lines 29-52)

A Python config module may or may not define each attribute
(`hasattr`), so every attribute is wrapped in an outer `Option`:
`none` means the attribute is absent. `AMP_NAME` / `AMP_SERIAL` can
themselves hold Python `None`, hence the inner `Option`. -/

structure Cfg where
  DATA_PATH : Option String
  AMP_NAME : Option (Option String)
  AMP_SERIAL : Option (Option String)
  GLOBAL_TIME : Option ℚ
  NJOBS : Option ℕ
  deriving DecidableEq, Repr

/-- One pass of the `optional_vars` loop body for a single key:
if the attribute is absent, set it to its default and log a warning. -/
def setDefaultAmpName (c : Cfg) : Cfg × List String :=
  if c.AMP_NAME = none then ({ c with AMP_NAME := some none }, ["AMP_NAME"])
  else (c, [])

def setDefaultAmpSerial (c : Cfg) : Cfg × List String :=
  if c.AMP_SERIAL = none then ({ c with AMP_SERIAL := some none }, ["AMP_SERIAL"])
  else (c, [])

def setDefaultGlobalTime (c : Cfg) : Cfg × List String :=
  if c.GLOBAL_TIME = none then ({ c with GLOBAL_TIME := some 60 }, ["GLOBAL_TIME"])
  else (c, [])

def setDefaultNjobs (c : Cfg) : Cfg × List String :=
  if c.NJOBS = none then ({ c with NJOBS := some 1 }, ["NJOBS"])
  else (c, [])

/-- `check_config` (lines 29-52).  The `critical_vars` loop runs first
and raises `RuntimeError` if `DATA_PATH` is absent; on that path the
config object is returned as it stands at the raise (`Except.error`),
so atomicity of the failure is visible.  Otherwise the `optional_vars`
loop substitutes a default and logs a warning for each absent optional
key, in the source's dictionary order. -/
def check_config (cfg : Cfg) : Except Cfg (Cfg × List String) :=
  if cfg.DATA_PATH = none then .error cfg
  else
    let (c1, w1) := setDefaultAmpName cfg
    let (c2, w2) := setDefaultAmpSerial c1
    let (c3, w3) := setDefaultGlobalTime c2
    let (c4, w4) := setDefaultNjobs c3
    .ok (c4, w1 ++ w2 ++ w3 ++ w4)

/-! ## Stream locator (`find_lsl_stream`, lines 56-69) -/

/-- What `find_lsl_stream` does: either it performs a discovery scan
(`pu.search_lsl(state, ignore_markers=True)`, presenting candidates to
the GUI context), or it returns the configured name/serial unchanged.
The `Bool` records the `ignore_markers` flag passed to the scan. -/
inductive LocatorAction where
  | scan (ignoreMarkers : Bool)
  | useConfigured (name serial : Option String)
  deriving DecidableEq, Repr

/-- `find_lsl_stream` (lines 63-69): the scan happens only when BOTH
`cfg.AMP_NAME` and `cfg.AMP_SERIAL` are `None`; otherwise the
configured values are returned unchanged. -/
def find_lsl_stream (ampName ampSerial : Option String) : LocatorAction :=
  if ampName = none ∧ ampSerial = none then .scan true
  else .useConfigured ampName ampSerial

/-! ## The start gate (`run`, lines 92-98)

`while state.value == 2: pass` polls the shared flag; after it exits,
`if not state.value: sys.exit(-1)` performs one further read.  The
input is the sequence of values successive reads return. -/

inductive AwaitResult where
  | polling
  | abort
  | proceed
  deriving DecidableEq, Repr

/-- The AwaitStart phase.  Reads are consumed while they equal `2`
(Wait); the first read `v ≠ 2` exits the `while`, and the next read `c`
feeds `if not state.value`: `c = 0` aborts via `sys.exit(-1)`, any
other value proceeds to stream connection and the main loop.
`polling` means the modelled read sequence ran out while the code was
still spinning (or before the `if` check could read). -/
def awaitStart : List ℤ → AwaitResult
  | [] => .polling
  | v :: rest =>
    if v = 2 then awaitStart rest
    else
      match rest with
      | [] => .polling
      | c :: _ => if c = 0 then .abort else .proceed

/-! ## The main acquisition loop (`run`, lines 119-145) -/

/-- Per-iteration environment input: the value `state.value` returns at
the `while` condition, the value `global_timer.sec()` returns there,
and the timestamp list `tslist` of the window returned by
`sr.acquire(); sr.get_window()`. -/
structure IterInput where
  gate : ℤ
  elapsed : ℚ
  tslist : List ℚ
  deriving DecidableEq, Repr

/-- Loop-relevant parameters of the validated config. -/
structure LoopCfg where
  GLOBAL_TIME : ℚ
  TIMER_SLEEP : ℚ
  deriving DecidableEq, Repr

/-- Observable events of one pass through the loop body:
`warning` is `logger.warning('There seems to be delay...')`,
`sleepBackoff` is `time.sleep(1)`,
`callback` is the per-window processing site (`ADD YOUR CODE HERE`),
`setLast t` is the assignment `last_ts = tslist[-1]`,
`pace` is `internal_timer.sleep_atleast(cfg.TIMER_SLEEP)`. -/
inductive Event where
  | warning
  | sleepBackoff
  | callback (tslist : List ℚ)
  | setLast (t : ℚ)
  | pace
  deriving DecidableEq, Repr

/-- What one iteration does, before its effects are recorded. -/
inductive StepOut where
  | exitLoop
  | crash
  | reject
  | accept (newLast : ℚ)
  deriving DecidableEq, Repr

/-- One iteration of `while state.value == 1 and global_timer.sec() <
cfg.GLOBAL_TIME` (lines 122-145), as a function of the loop state
`last` (the Python local `last_ts`, `none` while unassigned):
* condition false → the loop exits;
* `tsnew = np.where(np.array(tslist) > last_ts)[0]` with `last_ts`
  unassigned → `UnboundLocalError` (crash);
* `len(tsnew) == 0` (no timestamp strictly above `last_ts`; also the
  case of an empty `tslist`) → warning / backoff / `continue`;
* otherwise → the processing site runs, `last_ts = tslist[-1]`, and
  the pacer sleeps. -/
def stepOf (cfg : LoopCfg) (last : Option ℚ) (i : IterInput) : StepOut :=
  if i.gate = 1 ∧ i.elapsed < cfg.GLOBAL_TIME then
    match last, i.tslist.getLast? with
    | none, _ => .crash
    | some _, none => .reject
    | some t, some lastTs =>
        if i.tslist.all (fun ts => decide (ts ≤ t)) then .reject
        else .accept lastTs
  else .exitLoop

/-- Result of running the loop on a (modelled prefix of the) input
sequence: `finished` = condition became false, `run` returns normally;
`crashed` = uncaught `UnboundLocalError`; `running` = the modelled
inputs were exhausted with the loop still going. -/
inductive LoopResult where
  | finished (trace : List Event) (last : Option ℚ)
  | crashed (trace : List Event)
  | running (trace : List Event) (last : Option ℚ)
  deriving DecidableEq, Repr

/-- Prepend the events of an iteration to a loop result's trace. -/
def withTrace (es : List Event) : LoopResult → LoopResult
  | .finished tr l => .finished (es ++ tr) l
  | .crashed tr => .crashed (es ++ tr)
  | .running tr l => .running (es ++ tr) l

/-- The main loop, consuming one `IterInput` per iteration. -/
def runLoop (cfg : LoopCfg) (last : Option ℚ) : List IterInput → LoopResult
  | [] => .running [] last
  | i :: rest =>
    match stepOf cfg last i with
    | .exitLoop => .finished [] last
    | .crash => .crashed []
    | .reject => withTrace [.warning, .sleepBackoff] (runLoop cfg last rest)
    | .accept l =>
        withTrace [.callback i.tslist, .setLast l, .pace] (runLoop cfg (some l) rest)

/-! ## The whole `run` entry and process exit codes -/

inductive RunOutcome where
  | polling
  | aborted
  | completed (trace : List Event) (last : Option ℚ)
  | crashed (trace : List Event)
  | stillRunning (trace : List Event) (last : Option ℚ)
  deriving DecidableEq, Repr

def liftLoop : LoopResult → RunOutcome
  | .finished tr l => .completed tr l
  | .crashed tr => .crashed tr
  | .running tr l => .stillRunning tr l

/-- `run` (lines 86-145): the gate phase, then (modulo the unmodelled
stream connection, which the claims do not touch) the main loop,
started with `last_ts` unassigned (`none`), exactly as in the source. -/
def run (cfg : LoopCfg) (gateReads : List ℤ) (iters : List IterInput) : RunOutcome :=
  match awaitStart gateReads with
  | .polling => .polling
  | .abort => .aborted
  | .proceed => liftLoop (runLoop cfg none iters)

/-- Process exit status: `sys.exit(-1)` gives status 255; a normal
return from `batch_run` gives 0; an uncaught exception gives 1.
`none`: the process has not exited within the modelled horizon. -/
def exitCode : RunOutcome → Option ℤ
  | .polling => none
  | .aborted => some 255
  | .completed _ _ => some 0
  | .crashed _ => some 1
  | .stillRunning _ _ => none

/-! ## Trace observations -/

def isWarning : Event → Bool
  | .warning => true
  | _ => false

def isSleepBackoff : Event → Bool
  | .sleepBackoff => true
  | _ => false

def isCallback : Event → Bool
  | .callback _ => true
  | _ => false

def isPace : Event → Bool
  | .pace => true
  | _ => false

def warningCount (tr : List Event) : ℕ := tr.countP isWarning

def sleepCount (tr : List Event) : ℕ := tr.countP isSleepBackoff

def callbackCount (tr : List Event) : ℕ := tr.countP isCallback

def paceCount (tr : List Event) : ℕ := tr.countP isPace

/-- The successive values recorded into `last_ts` along a trace. -/
def setLasts (tr : List Event) : List ℚ :=
  tr.filterMap fun e => match e with | .setLast t => some t | _ => none

def traceOf : LoopResult → List Event
  | .finished tr _ => tr
  | .crashed tr => tr
  | .running tr _ => tr

def outcomeTrace : RunOutcome → List Event
  | .polling => []
  | .aborted => []
  | .completed tr _ => tr
  | .crashed tr => tr
  | .stillRunning tr _ => tr

/-- The trace of N consecutive no-progress iterations. -/
def noProgressTrace (n : ℕ) : List Event :=
  (List.replicate n [Event.warning, Event.sleepBackoff]).flatten

def stateList : Option ℚ → List ℚ
  | none => []
  | some t => [t]

/-- Did the loop exit through its `while` condition (normal return)? -/
def isFinished : LoopResult → Bool
  | .finished _ _ => true
  | _ => false

/-! ## Basic lemmas about traces and the step function -/

lemma withTrace_nil (r : LoopResult) : withTrace [] r = r := by
  cases r <;> simp [withTrace]

lemma withTrace_append (es fs : List Event) (r : LoopResult) :
    withTrace es (withTrace fs r) = withTrace (es ++ fs) r := by
  cases r <;> simp [withTrace]

lemma traceOf_withTrace (es : List Event) (r : LoopResult) :
    traceOf (withTrace es r) = es ++ traceOf r := by
  cases r <;> simp [withTrace, traceOf]

lemma setLasts_append (es fs : List Event) :
    setLasts (es ++ fs) = setLasts es ++ setLasts fs := by
  simp [setLasts]

/-- In a non-decreasing list every member is at most the last element. -/
lemma mem_le_getLast (l : List ℚ) (x y : ℚ) :
    List.Chain' (· ≤ ·) l → x ∈ l → l.getLast? = some y → x ≤ y := by
  induction l generalizing x with
  | nil => intro _ hx _; simp at hx
  | cons a t ih =>
    intro hc hx hy
    cases t with
    | nil =>
      simp at hx hy
      simp [hx, hy]
    | cons b t2 =>
      rw [List.getLast?_cons_cons] at hy
      rcases List.chain'_cons.mp hc with ⟨hab, hc2⟩
      rcases List.mem_cons.mp hx with rfl | hx2
      · exact le_trans hab (ih b hc2 (List.mem_cons_self b t2) hy)
      · exact ih x hc2 hx2 hy

/-- Inversion of an accepting step: the loop state was assigned, the
new value is the window's final timestamp, and the window holds a
timestamp strictly above the previous state. -/
lemma stepOf_accept (cfg : LoopCfg) (last : Option ℚ) (i : IterInput) (l : ℚ) :
    stepOf cfg last i = .accept l →
    ∃ t, last = some t ∧ i.tslist.getLast? = some l ∧ ∃ ts ∈ i.tslist, t < ts := by
  intro h
  unfold stepOf at h
  split at h
  · split at h
    · simp at h
    · simp at h
    · split at h
      · simp at h
      · injection h with h1
        subst h1
        rename_i hall
        refine ⟨_, rfl, ?_, ?_⟩
        · assumption
        · simp only [List.all_eq_true, decide_eq_true_eq] at hall
          push_neg at hall
          obtain ⟨ts, hts, hlt⟩ := hall
          exact ⟨ts, hts, hlt⟩
  · simp at h

/-- A step from an assigned state with the loop condition true and no
timestamp above the state rejects the window. -/
lemma stepOf_reject (cfg : LoopCfg) (t : ℚ) (i : IterInput)
    (hg : i.gate = 1) (he : i.elapsed < cfg.GLOBAL_TIME)
    (hts : ∀ ts ∈ i.tslist, ts ≤ t) :
    stepOf cfg (some t) i = .reject := by
  have hall : i.tslist.all (fun ts => decide (ts ≤ t)) = true := by
    rw [List.all_eq_true]
    intro ts h
    simpa using hts ts h
  cases hgl : i.tslist.getLast? <;> simp [stepOf, hg, he, hgl, hall]

lemma runLoop_cons_exit (cfg : LoopCfg) (last : Option ℚ) (i : IterInput)
    (rest : List IterInput) (h : stepOf cfg last i = .exitLoop) :
    runLoop cfg last (i :: rest) = .finished [] last := by
  simp [runLoop, h]

lemma runLoop_cons_crash (cfg : LoopCfg) (last : Option ℚ) (i : IterInput)
    (rest : List IterInput) (h : stepOf cfg last i = .crash) :
    runLoop cfg last (i :: rest) = .crashed [] := by
  simp [runLoop, h]

lemma runLoop_cons_reject (cfg : LoopCfg) (last : Option ℚ) (i : IterInput)
    (rest : List IterInput) (h : stepOf cfg last i = .reject) :
    runLoop cfg last (i :: rest)
      = withTrace [.warning, .sleepBackoff] (runLoop cfg last rest) := by
  simp [runLoop, h]

lemma runLoop_cons_accept (cfg : LoopCfg) (last : Option ℚ) (i : IterInput)
    (rest : List IterInput) (l : ℚ) (h : stepOf cfg last i = .accept l) :
    runLoop cfg last (i :: rest)
      = withTrace [.callback i.tslist, .setLast l, .pace]
          (runLoop cfg (some l) rest) := by
  simp [runLoop, h]

/-- The AwaitStart busy-wait never exits while every read is `Wait`. -/
lemma awaitStart_replicate_wait (n : ℕ) :
    awaitStart (List.replicate n 2) = .polling := by
  induction n with
  | zero => rfl
  | succ k ih => simp [List.replicate_succ, awaitStart, ih]

/-- After the `while` exits on a non-Wait read, the `if not
state.value` read decides: `0` aborts, anything else proceeds. -/
lemma awaitStart_after_wait (n : ℕ) (v c : ℤ) (rest : List ℤ) (hv : v ≠ 2) :
    awaitStart (List.replicate n 2 ++ v :: c :: rest)
      = if c = 0 then .abort else .proceed := by
  induction n with
  | zero => simp [awaitStart, hv]
  | succ k ih => simp [List.replicate_succ, awaitStart, ih]

/-! ## Claim theorems -/

/-- Claim C8: `check_config` fails exactly when `DATA_PATH` is absent;
every absent optional field is defaulted with a warning (`AMP_NAME`
and `AMP_SERIAL` to `None`, `GLOBAL_TIME` to 60.0, `NJOBS` to 1), and
fields already present keep their values. -/
theorem check_config_validation (cfg : Cfg) :
    ((∃ c, check_config cfg = .error c) ↔ cfg.DATA_PATH = none)
    ∧ (cfg.DATA_PATH ≠ none →
        ∃ c w, check_config cfg = .ok (c, w)
          ∧ c.DATA_PATH = cfg.DATA_PATH
          ∧ c.AMP_NAME = some (cfg.AMP_NAME.getD none)
          ∧ c.AMP_SERIAL = some (cfg.AMP_SERIAL.getD none)
          ∧ c.GLOBAL_TIME = some (cfg.GLOBAL_TIME.getD 60)
          ∧ c.NJOBS = some (cfg.NJOBS.getD 1)
          ∧ w = (if cfg.AMP_NAME = none then ["AMP_NAME"] else [])
              ++ (if cfg.AMP_SERIAL = none then ["AMP_SERIAL"] else [])
              ++ (if cfg.GLOBAL_TIME = none then ["GLOBAL_TIME"] else [])
              ++ (if cfg.NJOBS = none then ["NJOBS"] else [])) := by
  obtain ⟨dp, an, as, gt, nj⟩ := cfg
  cases dp with
  | none => simp [check_config]
  | some p =>
    constructor
    · cases an <;> cases as <;> cases gt <;> cases nj <;>
        simp [check_config, setDefaultAmpName, setDefaultAmpSerial,
          setDefaultGlobalTime, setDefaultNjobs]
    · intro _
      cases an <;> cases as <;> cases gt <;> cases nj <;>
        simp [check_config, setDefaultAmpName, setDefaultAmpSerial,
          setDefaultGlobalTime, setDefaultNjobs] <;>
        exact ⟨_, _, ⟨rfl, rfl⟩, rfl, rfl, rfl, rfl, rfl, rfl⟩

/-- Witness for C8 at a concrete config missing every optional key. -/
theorem check_config_validation_witness :
    (Cfg.mk (some "/data") none none none none).DATA_PATH ≠ none
    ∧ ∃ c w, check_config (Cfg.mk (some "/data") none none none none) = .ok (c, w) := by
  have h := (check_config_validation (Cfg.mk (some "/data") none none none none)).2
    (by decide)
  obtain ⟨c, w, hok, _⟩ := h
  exact ⟨by decide, c, w, hok⟩

/-- Claim C10: when `DATA_PATH` is missing, `check_config` raises
before the optional loop runs, so the config object is returned
completely unmodified at the raise. -/
theorem check_config_atomic_failure (cfg : Cfg) (h : cfg.DATA_PATH = none) :
    check_config cfg = .error cfg := by
  simp [check_config, h]

/-- Witness for C10 at a concrete config. -/
theorem check_config_atomic_failure_witness :
    check_config (Cfg.mk none (some (some "amp")) none (some 5) none)
      = .error (Cfg.mk none (some (some "amp")) none (some 5) none) :=
  check_config_atomic_failure _ rfl

/-- Counterexample to Claim C7: the config supplies the name but not
the serial — so it "does not supply both" — yet `find_lsl_stream`
performs no scan and returns the pair unchanged (the code only scans
when BOTH are `None`). -/
theorem find_lsl_stream_no_scan_counterexample :
    find_lsl_stream (some "actiCHamp") none ≠ .scan true
    ∧ find_lsl_stream (some "actiCHamp") none
        = .useConfigured (some "actiCHamp") none := by
  constructor <;> decide

/-- Claim C7 (amended): the discovery scan (with marker streams
ignored) happens iff both `AMP_NAME` and `AMP_SERIAL` are `None`;
whenever at least one is supplied, the configured pair is returned
unchanged without a scan.  In particular, both supplied → returned
unchanged. -/
theorem find_lsl_stream_scan_iff (ampName ampSerial : Option String) :
    (find_lsl_stream ampName ampSerial = .scan true
      ↔ ampName = none ∧ ampSerial = none)
    ∧ (ampName ≠ none ∨ ampSerial ≠ none →
        find_lsl_stream ampName ampSerial = .useConfigured ampName ampSerial) := by
  unfold find_lsl_stream
  by_cases h : ampName = none ∧ ampSerial = none
  · rw [if_pos h]
    exact ⟨by simp [h], fun hc => by tauto⟩
  · rw [if_neg h]
    exact ⟨⟨fun hx => LocatorAction.noConfusion hx, fun hx => absurd hx h⟩,
      fun _ => rfl⟩

/-- Witness for the amended C7 at a concrete input. -/
theorem find_lsl_stream_scan_iff_witness :
    find_lsl_stream none (some "SN123") = .useConfigured none (some "SN123") :=
  (find_lsl_stream_scan_iff none (some "SN123")).2 (Or.inr (by decide))

/-- Claim C1: whenever the main loop is entered (gate at Run after the
start phase, deadline not exceeded on the first check), the continuity
check `np.array(tslist) > last_ts` reads `last_ts` before it has ever
been assigned, so the very first iteration hits the uninitialized-name
error path (`UnboundLocalError`) — no event is ever produced. -/
theorem first_iteration_reads_uninitialized_last_ts (cfg : LoopCfg)
    (reads : List ℤ) (i : IterInput) (rest : List IterInput)
    (hA : awaitStart reads = .proceed) (hg : i.gate = 1)
    (he : i.elapsed < cfg.GLOBAL_TIME) :
    run cfg reads (i :: rest) = .crashed [] := by
  have hs : stepOf cfg none i = .crash := by
    unfold stepOf
    rw [if_pos ⟨hg, he⟩]
  have hr : runLoop cfg none (i :: rest) = .crashed [] :=
    runLoop_cons_crash cfg none i rest hs
  simp [run, hA, hr, liftLoop]

/-- Witness for C1: a concrete session that arms the gate and supplies
one window still crashes on the first iteration. -/
theorem first_iteration_reads_uninitialized_last_ts_witness :
    run ⟨60, 1⟩ [1, 1] [⟨1, 0, [0]⟩] = .crashed [] :=
  first_iteration_reads_uninitialized_last_ts ⟨60, 1⟩ [1, 1] ⟨1, 0, [0]⟩ []
    (by decide) rfl (by decide)

/-- The end-to-end scenario of Claim C2: `GLOBAL_TIME = 0.2`,
`TIMER_SLEEP = 0.05`, the gate already at Run. -/
def c2cfg : LoopCfg := ⟨mkRat 1 5, mkRat 1 20⟩

/-- Five loop-condition checks of the C2 scenario: the gate stays at
Run, the session clock advances by `TIMER_SLEEP` per iteration, and
every acquired window carries a strictly increasing fresh timestamp. -/
def c2iters : List IterInput :=
  [⟨1, 0, [mkRat 1 100]⟩, ⟨1, mkRat 1 20, [mkRat 2 100]⟩,
   ⟨1, mkRat 2 20, [mkRat 3 100]⟩, ⟨1, mkRat 3 20, [mkRat 4 100]⟩,
   ⟨1, mkRat 4 20, [mkRat 5 100]⟩]

/-- Claim C2 (the code contradicts it): in the spec's end-to-end
scenario the code crashes with `UnboundLocalError` on the very first
window instead of invoking the callback ~4 times and exiting 0 — the
callback runs 0 times and the process exit code is 1.  The last two
conjuncts show the intended behaviour is within one slip of the code:
had `last_ts` been initialized (here to 0), the same inputs would
yield exactly 4 callback invocations and a normal loop exit. -/
theorem c2_scenario_crashes_on_first_window :
    run c2cfg [1, 1] c2iters = .crashed []
    ∧ callbackCount (outcomeTrace (run c2cfg [1, 1] c2iters)) = 0
    ∧ exitCode (run c2cfg [1, 1] c2iters) = some 1
    ∧ callbackCount (traceOf (runLoop c2cfg (some 0) c2iters)) = 4
    ∧ isFinished (runLoop c2cfg (some 0) c2iters) = true := by
  decide

/-- Claim C5: a Running iteration whose gate read is Stop, or whose
session-timer read meets or exceeds `GLOBAL_TIME`, makes the `while`
condition false: the loop terminates normally and (when the run
reached the loop through the start gate) the process exits with 0. -/
theorem stop_or_deadline_normal_exit (cfg : LoopCfg) (last : Option ℚ)
    (i : IterInput) (rest : List IterInput)
    (h : i.gate = 0 ∨ cfg.GLOBAL_TIME ≤ i.elapsed) :
    runLoop cfg last (i :: rest) = .finished [] last
    ∧ exitCode (liftLoop (runLoop cfg last (i :: rest))) = some 0
    ∧ ∀ reads, awaitStart reads = .proceed →
        runLoop cfg none (i :: rest) = .finished [] none →
        exitCode (run cfg reads (i :: rest)) = some 0 := by
  have hs : stepOf cfg last i = .exitLoop := by
    unfold stepOf
    rw [if_neg]
    rcases h with h | h
    · rintro ⟨h1, -⟩
      rw [h] at h1
      exact absurd h1 (by decide)
    · rintro ⟨-, h2⟩
      exact absurd h2 (not_lt.mpr h)
  have hr : runLoop cfg last (i :: rest) = .finished [] last :=
    runLoop_cons_exit cfg last i rest hs
  refine ⟨hr, by rw [hr]; rfl, ?_⟩
  intro reads hA hr0
  simp [run, hA, hr0, liftLoop, exitCode]

/-- Witness for C5: a Stop read terminates a concrete session. -/
theorem stop_or_deadline_normal_exit_witness :
    runLoop ⟨1, 1⟩ (some 2) [⟨0, 0, [1]⟩] = .finished [] (some 2) :=
  (stop_or_deadline_normal_exit ⟨1, 1⟩ (some 2) ⟨0, 0, [1]⟩ []
    (Or.inl rfl)).1

/-- Claim C9: the `while` condition requires the gate to read exactly
`1`; any other value — in particular Wait (2) — exits the loop at once,
and the exit is reported as normal completion (exit code 0), never as
a pause. -/
theorem gate_not_run_means_exit (cfg : LoopCfg) (last : Option ℚ)
    (i : IterInput) (rest : List IterInput) (h : i.gate ≠ 1) :
    runLoop cfg last (i :: rest) = .finished [] last
    ∧ exitCode (liftLoop (runLoop cfg last (i :: rest))) = some 0 := by
  have hs : stepOf cfg last i = .exitLoop := by
    unfold stepOf
    rw [if_neg]
    rintro ⟨h1, -⟩
    exact h h1
  have hr : runLoop cfg last (i :: rest) = .finished [] last :=
    runLoop_cons_exit cfg last i rest hs
  exact ⟨hr, by rw [hr]; rfl⟩

/-- Witness for C9: a Wait (2) write observed mid-session exits the
loop normally, exactly like Stop. -/
theorem gate_not_run_means_exit_witness :
    runLoop ⟨60, 1⟩ (some 0) [⟨2, 0, [1]⟩] = .finished [] (some 0)
    ∧ exitCode (liftLoop (runLoop ⟨60, 1⟩ (some 0) [⟨2, 0, [1]⟩])) = some 0 :=
  gate_not_run_means_exit ⟨60, 1⟩ (some 0) ⟨2, 0, [1]⟩ [] (by decide)

/-- Claim C4: the AwaitStart phase polls while the gate reads Wait;
when the post-wait check reads Stop the run aborts with a non-zero
exit status and the callback is never invoked; when it reads Run the
run proceeds to the main phase. -/
theorem await_start_behavior (cfg : LoopCfg) (n : ℕ) (v c : ℤ)
    (grest : List ℤ) (iters : List IterInput) (hv : v ≠ 2) :
    awaitStart (List.replicate n 2) = .polling
    ∧ (c = 0 →
        run cfg (List.replicate n 2 ++ v :: c :: grest) iters = .aborted
        ∧ exitCode (run cfg (List.replicate n 2 ++ v :: c :: grest) iters)
            = some 255
        ∧ exitCode (run cfg (List.replicate n 2 ++ v :: c :: grest) iters)
            ≠ some 0
        ∧ callbackCount
            (outcomeTrace (run cfg (List.replicate n 2 ++ v :: c :: grest) iters))
            = 0)
    ∧ (c = 1 →
        run cfg (List.replicate n 2 ++ v :: c :: grest) iters
          = liftLoop (runLoop cfg none iters)) := by
  refine ⟨awaitStart_replicate_wait n, ?_, ?_⟩
  · intro hc
    have hA := awaitStart_after_wait n v c grest hv
    rw [if_pos hc] at hA
    have hrun : run cfg (List.replicate n 2 ++ v :: c :: grest) iters
        = .aborted := by
      simp [run, hA]
    exact ⟨hrun, by rw [hrun]; rfl, by rw [hrun]; decide, by rw [hrun]; rfl⟩
  · intro hc
    have hA := awaitStart_after_wait n v c grest hv
    rw [if_neg (by rw [hc]; decide)] at hA
    simp [run, hA]

/-- Witness for C4: after two Wait polls, a Stop read makes a concrete
run abort. -/
theorem await_start_behavior_witness :
    run ⟨60, 1⟩ (List.replicate 2 2 ++ (1 : ℤ) :: (0 : ℤ) :: []) [] = .aborted :=
  ((await_start_behavior ⟨60, 1⟩ 2 1 0 [] [] (by decide)).2.1 rfl).1

/-- The values recorded into `last_ts` along a run form a
non-decreasing chain, continuing the current state, provided each
window's timestamps are non-decreasing (the stream contract). -/
lemma runLoop_setLasts_chain (cfg : LoopCfg) :
    ∀ (iters : List IterInput) (last : Option ℚ),
      (∀ i ∈ iters, List.Chain' (· ≤ ·) i.tslist) →
      List.Chain' (· ≤ ·)
        (stateList last ++ setLasts (traceOf (runLoop cfg last iters))) := by
  intro iters
  induction iters with
  | nil =>
    intro last _
    cases last <;> simp [runLoop, traceOf, setLasts, stateList]
  | cons i rest ih =>
    intro last hs
    have hi : List.Chain' (· ≤ ·) i.tslist := hs i (List.mem_cons_self i rest)
    have hrest : ∀ j ∈ rest, List.Chain' (· ≤ ·) j.tslist :=
      fun j hj => hs j (List.mem_cons_of_mem i hj)
    cases hstep : stepOf cfg last i with
    | exitLoop =>
      rw [runLoop_cons_exit cfg last i rest hstep]
      cases last <;> simp [traceOf, setLasts, stateList]
    | crash =>
      rw [runLoop_cons_crash cfg last i rest hstep]
      cases last <;> simp [traceOf, setLasts, stateList]
    | reject =>
      rw [runLoop_cons_reject cfg last i rest hstep, traceOf_withTrace,
        setLasts_append]
      have hnil : setLasts [Event.warning, Event.sleepBackoff] = [] := rfl
      rw [hnil, List.nil_append]
      exact ih last hrest
    | accept l =>
      obtain ⟨t, hlast, hgl, ts, hts, hlt⟩ := stepOf_accept cfg last i l hstep
      subst hlast
      rw [runLoop_cons_accept cfg (some t) i rest l hstep, traceOf_withTrace,
        setLasts_append]
      have hone : setLasts [Event.callback i.tslist, Event.setLast l, Event.pace]
          = [l] := rfl
      rw [hone]
      have htl : t ≤ l :=
        le_of_lt (lt_of_lt_of_le hlt (mem_le_getLast i.tslist ts l hi hts hgl))
      have ih2 := ih (some l) hrest
      simp only [stateList, List.singleton_append] at ih2 ⊢
      exact List.chain'_cons.mpr ⟨htl, ih2⟩

/-- Claim C3: across any run whose windows are internally
non-decreasing, the successive `last_timestamp` values are
non-decreasing; moreover a window is accepted (reaches the processing
site) only when it holds a timestamp strictly above the previous
`last_timestamp`, and acceptance records exactly the window's final
timestamp. -/
theorem last_timestamp_monotone (cfg : LoopCfg) (last : Option ℚ)
    (iters : List IterInput)
    (hs : ∀ i ∈ iters, List.Chain' (· ≤ ·) i.tslist) :
    List.Chain' (· ≤ ·)
      (stateList last ++ setLasts (traceOf (runLoop cfg last iters)))
    ∧ (∀ t i l, stepOf cfg (some t) i = .accept l → ∃ ts ∈ i.tslist, t < ts)
    ∧ (∀ t i l, stepOf cfg (some t) i = .accept l
        → i.tslist.getLast? = some l) := by
  refine ⟨runLoop_setLasts_chain cfg iters last hs, ?_, ?_⟩
  · intro t i l h
    obtain ⟨t2, ht2, -, ts, hts, hlt⟩ := stepOf_accept cfg (some t) i l h
    injection ht2 with ht2
    subst ht2
    exact ⟨ts, hts, hlt⟩
  · intro t i l h
    obtain ⟨t2, -, hgl, -⟩ := stepOf_accept cfg (some t) i l h
    exact hgl

/-- Witness for C3 on a concrete two-window run. -/
theorem last_timestamp_monotone_witness :
    List.Chain' (· ≤ ·)
      (stateList (some 0)
        ++ setLasts (traceOf (runLoop ⟨60, 1⟩ (some 0)
              [⟨1, 0, [1, 2]⟩, ⟨1, 1, [2, 3]⟩]))) :=
  (last_timestamp_monotone ⟨60, 1⟩ (some 0)
    [⟨1, 0, [1, 2]⟩, ⟨1, 1, [2, 3]⟩]
    (by
      intro i hi
      fin_cases hi <;>
        norm_num [List.chain'_cons, List.chain'_singleton])).1

lemma noProgressTrace_succ (n : ℕ) :
    noProgressTrace (n + 1)
      = Event.warning :: Event.sleepBackoff :: noProgressTrace n := by
  simp [noProgressTrace, List.replicate_succ]

lemma noProgressTrace_counts (n : ℕ) :
    callbackCount (noProgressTrace n) = 0
    ∧ warningCount (noProgressTrace n) = n
    ∧ sleepCount (noProgressTrace n) = n
    ∧ setLasts (noProgressTrace n) = []
    ∧ paceCount (noProgressTrace n) = 0 := by
  induction n with
  | zero => exact ⟨rfl, rfl, rfl, rfl, rfl⟩
  | succ k ih =>
    obtain ⟨h1, h2, h3, h4, h5⟩ := ih
    rw [noProgressTrace_succ]
    simp only [callbackCount, warningCount, sleepCount, paceCount,
      setLasts] at h1 h2 h3 h4 h5 ⊢
    simp [List.countP_cons, isCallback, isWarning, isSleepBackoff, isPace,
      h1, h2, h3, h4, h5]

/-- N consecutive iterations whose windows never exceed the current
`last_ts` just log, back off and `continue`: the loop re-enters the
remaining input in the SAME state, having only prepended N
warning/backoff pairs to the trace. -/
lemma runLoop_no_progress (cfg : LoopCfg) (t : ℚ) :
    ∀ (iters rest : List IterInput),
      (∀ i ∈ iters,
        i.gate = 1 ∧ i.elapsed < cfg.GLOBAL_TIME ∧ ∀ ts ∈ i.tslist, ts ≤ t) →
      runLoop cfg (some t) (iters ++ rest)
        = withTrace (noProgressTrace iters.length) (runLoop cfg (some t) rest) := by
  intro iters
  induction iters with
  | nil =>
    intro rest _
    simp [noProgressTrace, withTrace_nil]
  | cons i irest ih =>
    intro rest h
    obtain ⟨hg, he, hts⟩ := h i (List.mem_cons_self i irest)
    have hstep := stepOf_reject cfg t i hg he hts
    rw [List.cons_append, runLoop_cons_reject cfg (some t) i (irest ++ rest) hstep,
      ih rest (fun j hj => h j (List.mem_cons_of_mem i hj)),
      withTrace_append, List.length_cons, noProgressTrace_succ]
    rfl

/-- Claim C6: during N consecutive Running iterations in which no
acquired timestamp exceeds the current `last_timestamp`, the callback
never runs, exactly N WARNING logs and N unit-backoff sleeps occur,
nothing is recorded into `last_timestamp`, and the pacer is never
touched; the loop then continues from the unchanged state. -/
theorem no_progress_backoff (cfg : LoopCfg) (t : ℚ)
    (iters rest : List IterInput)
    (h : ∀ i ∈ iters,
      i.gate = 1 ∧ i.elapsed < cfg.GLOBAL_TIME ∧ ∀ ts ∈ i.tslist, ts ≤ t) :
    runLoop cfg (some t) (iters ++ rest)
      = withTrace (noProgressTrace iters.length) (runLoop cfg (some t) rest)
    ∧ callbackCount (noProgressTrace iters.length) = 0
    ∧ warningCount (noProgressTrace iters.length) = iters.length
    ∧ sleepCount (noProgressTrace iters.length) = iters.length
    ∧ setLasts (noProgressTrace iters.length) = []
    ∧ paceCount (noProgressTrace iters.length) = 0 := by
  obtain ⟨h1, h2, h3, h4, h5⟩ := noProgressTrace_counts iters.length
  exact ⟨runLoop_no_progress cfg t iters rest h, h1, h2, h3, h4, h5⟩

/-- Witness for C6: one stale window against `last_ts = 5`. -/
theorem no_progress_backoff_witness :
    runLoop ⟨60, 1⟩ (some 5) ([⟨1, 0, [1, 2]⟩] ++ [])
      = withTrace (noProgressTrace 1) (runLoop ⟨60, 1⟩ (some 5) []) :=
  (no_progress_backoff ⟨60, 1⟩ 5 [⟨1, 0, [1, 2]⟩] [] (by decide)).1

end OnlineMicrostates
